import Mathlib

/-!
Verification of the poly-rewards dip-arbitrage core: a shallow embedding of
the capital guard (`src/lib/walletGuard.ts`), the PnL ledger
(`src/lib/pnlManager.ts`) and the `DipArbStrategy` position state machine
(unnamed strategy file, `DipArbStrategy`), together with theorems settling
the specification claims about them.

Numbers are embedded as `ℚ` (the TypeScript code uses IEEE doubles; all the
arithmetic relevant to the claims is exact at the inputs considered).
Asynchronous calls to the exchange (order submission, balance reads, order
books) are modelled by passing their results explicitly as parameters.
-/

/-! ### Capital guard — `src/lib/walletGuard.ts`

`WalletGuard` keeps a single counter `reserved`. The two mutators are
embedded as pure functions of the counter. -/

/-- `WalletGuard.tryReserve(amount, balance)` (walletGuard.ts lines 15-21):
fails without mutation when `reserved + amount > balance`, otherwise adds
`amount` to `reserved` and succeeds. Returns (result, new reserved). -/
def tryReserve (amount balance reserved : ℚ) : Bool × ℚ :=
  if reserved + amount > balance then (false, reserved)
  else (true, reserved + amount)

/-- `WalletGuard.release(amount)` (walletGuard.ts lines 27-30): subtracts
`amount` from `reserved`, clamping at zero. -/
def release (amount reserved : ℚ) : ℚ :=
  if reserved - amount < 0 then 0 else reserved - amount

/-! ### Drawdown tracking — `src/lib/pnlManager.ts` (`updateWalletBalance`,
`checkDrawdown`)

Only the two fields these methods touch are modelled here; the full ledger
state appears further below. -/

/-- The balance-tracking part of `GlobalState` (pnlManager.ts lines 38-44). -/
structure BalSnapshot where
  walletBalance : ℚ
  startingBalance : ℚ
  deriving DecidableEq

/-- Fresh `GlobalState` balances (pnlManager.ts lines 63-69). -/
def initBal : BalSnapshot := { walletBalance := 0, startingBalance := 0 }

/-- `PnlManager.updateWalletBalance(bal)` (pnlManager.ts lines 87-94):
stores the balance and captures `startingBalance` on the first update whose
balance is positive while `startingBalance` is still `0`. -/
def updateWalletBalance (s : BalSnapshot) (bal : ℚ) : BalSnapshot :=
  { walletBalance := bal
    startingBalance :=
      if s.startingBalance = 0 ∧ bal > 0 then bal else s.startingBalance }

/-- `PnlManager.checkDrawdown(limitPct)` (pnlManager.ts lines 96-101). -/
def checkDrawdown (s : BalSnapshot) (limitPct : ℚ) : Bool :=
  if s.startingBalance ≤ 0 then false
  else (s.startingBalance - s.walletBalance) / s.startingBalance > limitPct

/-- A sequence of `updateWalletBalance` calls applied in order. -/
def applyBalanceUpdates (s : BalSnapshot) (bals : List ℚ) : BalSnapshot :=
  bals.foldl updateWalletBalance s

/-! ### PnL ledger — `src/lib/pnlManager.ts`

The persisted `GlobalState` is modelled with association lists for the two
JS record maps (`coins`, `activeCycles`): assignment to a present key
replaces its value in place, assignment to an absent key appends, `delete`
removes the key. `sync()` replaces the in-memory state with a fresh parse
of the persisted file; in the single-process model that is the state the
method started from (every public method begins with `sync()` and ends
with `save()`), so a `sync()` that runs *mid-method* — `getCoinStats`
performs one at pnlManager.ts line 104 — discards any in-memory mutation
made since entry that has not been `save()`d. `closeCycle` is observably
unaffected (its only pre-`getCoinStats` mutation is the status write on a
cycle that is then deleted from the fresh copy), but `updateCycleCost`
loses its cost writes this way; both are modelled below with this re-sync
semantics. `save()` stamps `lastUpdate` with the current time, which every
mutator takes as an explicit `now` parameter. -/

/-- `CoinPnL` (pnlManager.ts lines 4-25). -/
structure CoinPnL where
  coin : String
  cyclesCompleted : ℕ
  cyclesWon : ℕ
  cyclesLost : ℕ
  cyclesAbandoned : ℕ
  realizedPnL : ℚ
  maxDrawdown : ℚ
  currentExposure : ℚ
  avgCycleDuration : ℚ
  deriving DecidableEq

/-- `CycleStats` (pnlManager.ts lines 27-34); `status` is `"OPEN"` or a
terminal reason. The strategy passes arbitrary reason strings (including
`"ARB_LOCKED"` and `"EXPIRED"`, outside the declared `PnlReason` type), so
it is modelled as `String`. -/
structure CycleStats where
  id : String
  coin : String
  startTs : ℚ
  yesCost : ℚ
  noCost : ℚ
  status : String
  deriving DecidableEq

/-- `GlobalState` (pnlManager.ts lines 38-44). -/
structure LedgerState where
  coins : List (String × CoinPnL)
  activeCycles : List (String × CycleStats)
  walletBalance : ℚ
  startingBalance : ℚ
  lastUpdate : ℚ
  deriving DecidableEq

/-- JS record assignment `m[k] = v`: replace the value at a present key,
append the pair at an absent key. -/
def updEntry {α : Type} (k : String) (v : α) : List (String × α) → List (String × α)
  | [] => [(k, v)]
  | (k', v') :: rest =>
      if k' = k then (k, v) :: rest else (k', v') :: updEntry k v rest

/-- JS `delete m[k]`. -/
def eraseKey {α : Type} (k : String) (m : List (String × α)) : List (String × α) :=
  m.filter (fun e => e.1 ≠ k)

/-- The default `CoinPnL` created by `getCoinStats` on first access
(pnlManager.ts lines 105-118). -/
def defaultCoin (coin : String) : CoinPnL :=
  { coin := coin, cyclesCompleted := 0, cyclesWon := 0, cyclesLost := 0,
    cyclesAbandoned := 0, realizedPnL := 0, maxDrawdown := 0,
    currentExposure := 0, avgCycleDuration := 0 }

/-- The `CoinPnL` that `getCoinStats(coin)` returns. -/
def getCoin (s : LedgerState) (coin : String) : CoinPnL :=
  (s.coins.lookup coin).getD (defaultCoin coin)

/-- The side effect of `getCoinStats(coin)`: materialise the default entry
when the coin is missing. -/
def ensureCoin (coins : List (String × CoinPnL)) (coin : String) :
    List (String × CoinPnL) :=
  if (coins.lookup coin).isSome then coins else updEntry coin (defaultCoin coin) coins

/-- The exposure recomputation loop shared by `updateCycleCost`
(pnlManager.ts lines 146-151) and `closeCycle` (lines 189-194): sum of
`yesCost + noCost` over the cycles of `coin` whose status is `"OPEN"`, in
map iteration order. -/
def openExposure (coin : String) (ac : List (String × CycleStats)) : ℚ :=
  ac.foldl
    (fun acc e =>
      if e.2.coin = coin ∧ e.2.status = "OPEN" then acc + (e.2.yesCost + e.2.noCost)
      else acc) 0

/-- `PnlManager.startCycle(coin, marketId, slug)` (pnlManager.ts lines
122-134). -/
def startCycle (s : LedgerState) (coin marketId slug : String) (now : ℚ) :
    LedgerState :=
  { s with
    activeCycles := updEntry marketId
      { id := slug, coin := coin, startTs := now, yesCost := 0, noCost := 0,
        status := "OPEN" } s.activeCycles
    lastUpdate := now }

/-- `PnlManager.updateCycleCost(marketId, yesCost, noCost)` (pnlManager.ts
lines 136-157): when the cycle is present, the code writes the two costs
onto the in-memory cycle (lines 140-141) and computes `totalExp` over that
mutated view (lines 146-151), but the `getCoinStats(coin)` call at line
153 starts with `sync()`, which replaces `this.state` with a fresh parse
of the file — the cost writes were never saved, so they are discarded and
the `save()` at line 156 persists the cycle with its *previous* costs.
Only the owning coin's `currentExposure` (set at line 154 on the fresh
copy, from the already-computed `totalExp`) and `lastUpdate` change. When
the cycle is absent, only `save()` runs. -/
def updateCycleCost (s : LedgerState) (marketId : String) (yesCost noCost : ℚ)
    (now : ℚ) : LedgerState :=
  match s.activeCycles.lookup marketId with
  | none => { s with lastUpdate := now }
  | some cy =>
      let cy' := { cy with yesCost := yesCost, noCost := noCost }
      let totalExp := openExposure cy.coin (updEntry marketId cy' s.activeCycles)
      let coins₁ := ensureCoin s.coins cy.coin
      let cs := (coins₁.lookup cy.coin).getD (defaultCoin cy.coin)
      { s with
        coins := updEntry cy.coin { cs with currentExposure := totalExp } coins₁
        lastUpdate := now }

/-- The win classification of `closeCycle` (pnlManager.ts line 168). -/
def isWinReason (r : String) : Bool :=
  r = "WIN" ∨ r = "EARLY_EXIT" ∨ r = "LATE_EXIT" ∨ r = "ARB"

/-- `PnlManager.closeCycle(marketId, result, pnl)` (pnlManager.ts lines
159-198): a no-op apart from `save()` when the cycle is absent from the
open set; otherwise bump the coin counters (win / loss / abandoned by
`result`), accumulate the realized PnL, remove the cycle, update the
running average duration with `n = cyclesCompleted` after the increment,
and recompute `currentExposure` over the remaining open cycles. -/
def closeCycle (s : LedgerState) (marketId result : String) (pnl now : ℚ) :
    LedgerState :=
  match s.activeCycles.lookup marketId with
  | none => { s with lastUpdate := now }
  | some cy =>
      let coins₁ := ensureCoin s.coins cy.coin
      let cs := (coins₁.lookup cy.coin).getD (defaultCoin cy.coin)
      let completed := cs.cyclesCompleted + 1
      let ac' := eraseKey marketId s.activeCycles
      let duration := (now - cy.startTs) / 1000
      let cs' := { cs with
        cyclesCompleted := completed
        cyclesWon := if isWinReason result then cs.cyclesWon + 1 else cs.cyclesWon
        cyclesLost := if result = "LOSS" then cs.cyclesLost + 1 else cs.cyclesLost
        cyclesAbandoned :=
          if ¬ (isWinReason result) ∧ result ≠ "LOSS" then cs.cyclesAbandoned + 1
          else cs.cyclesAbandoned
        realizedPnL := cs.realizedPnL + pnl
        avgCycleDuration :=
          (cs.avgCycleDuration * ((completed : ℚ) - 1) + duration) / (completed : ℚ)
        currentExposure := openExposure cy.coin ac' }
      { s with
        coins := updEntry cy.coin cs' coins₁
        activeCycles := ac'
        lastUpdate := now }

/-- A concrete open cycle used to instantiate the ledger theorems. -/
def demoCycle : CycleStats :=
  { id := "btc-updown-15m-0", coin := "BTC", startTs := 0, yesCost := 4,
    noCost := 5, status := "OPEN" }

/-- A concrete ledger state holding `demoCycle` open under market id `"m1"`. -/
def demoLedger : LedgerState :=
  { coins := [], activeCycles := [("m1", demoCycle)], walletBalance := 100,
    startingBalance := 100, lastUpdate := 0 }

/-! ### Side accumulator — `DipArbStrategy` per-leg position state

One `SideAcc` per outcome leg (the objects created at strategy lines
596-597 / 430-431 with fields `totalShares`, `totalCost`, `avgPrice`,
`buysTriggered`, `isBuying`, `lastBuyTs`, `firstBuyTs` and the optional
`lastBuyPrice`). -/

structure SideAcc where
  totalShares : ℚ
  totalCost : ℚ
  avgPrice : ℚ
  buysTriggered : ℕ
  isBuying : Bool
  lastBuyTs : ℚ
  firstBuyTs : ℚ
  lastBuyPrice : Option ℚ
  deriving DecidableEq

/-- A fresh side (strategy lines 596-597): all zero, `lastBuyPrice` unset. -/
def initSide : SideAcc :=
  { totalShares := 0, totalCost := 0, avgPrice := 0, buysTriggered := 0,
    isBuying := false, lastBuyTs := 0, firstBuyTs := 0, lastBuyPrice := none }

/-- The organic-fill state update of `checkOpportunity` (strategy lines
1034-1046): add the filled quantity and its cost, recompute the weighted
average, stamp the debounce fields. -/
def applyBuy (s : SideAcc) (filled price now : ℚ) : SideAcc :=
  { s with
    buysTriggered := s.buysTriggered + 1
    firstBuyTs := if s.totalShares = 0 then now else s.firstBuyTs
    totalShares := s.totalShares + filled
    totalCost := s.totalCost + filled * price
    avgPrice := (s.totalCost + filled * price) / (s.totalShares + filled)
    lastBuyPrice := some price
    lastBuyTs := now }

/-- The forced-hedge fill update of `checkStatusAndRotate` (strategy lines
703-706): shares, cost and average only. -/
def applyHedgeFill (s : SideAcc) (filled price : ℚ) : SideAcc :=
  { s with
    totalShares := s.totalShares + filled
    totalCost := s.totalCost + filled * price
    avgPrice := (s.totalCost + filled * price) / (s.totalShares + filled) }

/-- Side-accumulator states reachable in the strategy: organic fills
(lines 1034-1046), forced-hedge fills (lines 703-706, guarded by
`filledShares > 0` in both cases), the early/late-exit share zeroing that
leaves `totalCost` and `avgPrice` behind (lines 1334-1335 and 1460-1461),
the partial-unwind full reset of the winner side (lines 1548-1550), and
restart resumption seeding a nonzero cost with zero shares (lines
430-431). -/
inductive ReachableSide : SideAcc → Prop
  | init : ReachableSide initSide
  | buy {s : SideAcc} (filled price now : ℚ) : ReachableSide s → 0 < filled →
      ReachableSide (applyBuy s filled price now)
  | hedge {s : SideAcc} (filled price : ℚ) : ReachableSide s → 0 < filled →
      ReachableSide (applyHedgeFill s filled price)
  | exitZero {s : SideAcc} : ReachableSide s →
      ReachableSide { s with totalShares := 0 }
  | unwindReset {s : SideAcc} : ReachableSide s →
      ReachableSide { s with totalShares := 0, totalCost := 0, avgPrice := 0 }
  | resume (c : ℚ) : ReachableSide { initSide with totalCost := c }

/-- The fill-only fragment of `ReachableSide`: states produced by organic
and forced-hedge fills alone. -/
inductive FillReachable : SideAcc → Prop
  | init : FillReachable initSide
  | buy {s : SideAcc} (filled price now : ℚ) : FillReachable s → 0 < filled →
      FillReachable (applyBuy s filled price now)
  | hedge {s : SideAcc} (filled price : ℚ) : FillReachable s → 0 < filled →
      FillReachable (applyHedgeFill s filled price)

/-- A reachable side state violating `avgPrice * totalShares = totalCost`:
buy 10 shares at 0.40, then let an early/late profit exit zero the share
count (strategy lines 1334-1335) while `totalCost` stays 4. -/
def sideAccCex : SideAcc :=
  { applyBuy initSide 10 (2/5) 0 with totalShares := 0 }

/-! ### Market position state machine — `DipArbStrategy`

`MarketState` keeps the fields of the strategy's per-market object that the
control flow reads and writes (status flags, the two side accumulators,
timing and capital bounds); the pure identity fields (`marketId`,
`tokenIds`, `slug`, `question`, the price-history map) are carried by the
surrounding functions' parameters instead. -/

/-- `MarketState.status`: `'scanning' | 'EXITING' | 'partial_unwind' |
'complete'` (the `unwinding` constructor stands for the source's
`'partial_unwind'` string). -/
inductive MStatus
  | scanning
  | exiting
  | unwinding
  | complete
  deriving DecidableEq

/-- The `position` object: one accumulator per leg. -/
structure Position where
  yes : SideAcc
  no : SideAcc
  deriving DecidableEq

/-- The mutable per-market state (strategy lines 590-608 / 424-442);
`bestPairCost = none` models its `Infinity` initial value. -/
structure MarketState where
  position : Position
  status : MStatus
  arbLocked : Bool
  endTime : ℚ
  bestPairCost : Option ℚ
  lastImproveTs : ℚ
  maxMarketUsd : ℚ
  deriving DecidableEq

/-- `LateExitConfig` (strategy lines 245-250). -/
structure LateExitConfig where
  enabled : Bool
  timeRemainingSeconds : ℚ
  minWinnerPrice : ℚ
  minProfitUsd : ℚ
  deriving DecidableEq

/-- `PartialUnwindConfig` (strategy lines 252-257). -/
structure UnwindConfig where
  enabled : Bool
  timeRemainingSeconds : ℚ
  minWinnerPrice : ℚ
  minProfitUsd : ℚ
  deriving DecidableEq

/-- `EarlyExitConfig` (strategy lines 259-264). -/
structure EarlyExitConfig where
  enabled : Bool
  minProfitPct : ℚ
  minProfitUsd : ℚ
  maxSlippagePct : ℚ
  deriving DecidableEq

/-- The numeric fields of `DipArbConfig` the control flow uses (strategy
lines 266-283). -/
structure DipArbCfg where
  dipThreshold : ℚ
  slidingWindowMs : ℚ
  sumTarget : ℚ
  shares : ℚ
  leg2TimeoutSeconds : ℚ
  ignorePriceBelow : ℚ
  earlyExit : EarlyExitConfig
  lateExit : LateExitConfig
  unwind : UnwindConfig
  deriving DecidableEq

/-- The `earlyExit` constructor default (strategy lines 309-314). -/
def defaultEarlyCfg : EarlyExitConfig :=
  { enabled := true, minProfitPct := 10/100, minProfitUsd := 50/100,
    maxSlippagePct := 3/100 }

/-- The `lateExit` constructor default (strategy lines 315-320). -/
def defaultLateCfg : LateExitConfig :=
  { enabled := true, timeRemainingSeconds := 60, minWinnerPrice := 70/100,
    minProfitUsd := 1/100 }

/-- The `partialUnwind` constructor default (strategy lines 321-326). -/
def defaultUnwindCfg : UnwindConfig :=
  { enabled := true, timeRemainingSeconds := 45, minWinnerPrice := 70/100,
    minProfitUsd := 20/100 }

/-- The constructor defaults (strategy lines 296-327). -/
def defaultCfg : DipArbCfg :=
  { dipThreshold := 15/100, slidingWindowMs := 3000, sumTarget := 95/100,
    shares := 10, leg2TimeoutSeconds := 60, ignorePriceBelow := 0,
    earlyExit := defaultEarlyCfg, lateExit := defaultLateCfg,
    unwind := defaultUnwindCfg }

/-- JS `x || d` on numbers: `x` unless it is falsy (`0`), else `d`. -/
def jsOr (x d : ℚ) : ℚ := if x = 0 then d else x

/-- `pairCost < state.bestPairCost` with `bestPairCost` initially
`Infinity`. -/
def beatsBest (pairCost : ℚ) (best : Option ℚ) : Bool :=
  match best with
  | none => true
  | some b => pairCost < b

/-- `checkPairCost` (strategy lines 1180-1220): skipped unless the status is
`'scanning'`; when both sides hold shares it tracks the best pair cost and,
if `avgYes + avgNo <= sumTarget` and the arb is not already locked, sets
`arbLocked`, moves the status to `'complete'` and closes the cycle with
reason `"ARB_LOCKED"` and zero realized PnL (returned as the second
component). -/
def checkPairCost (cfg : DipArbCfg) (s : MarketState) (now : ℚ) :
    MarketState × Option (String × ℚ) :=
  if s.status = .complete ∨ s.status = .exiting ∨ s.status = .unwinding then (s, none)
  else if 0 < s.position.yes.totalShares ∧ 0 < s.position.no.totalShares then
    let pairCost := s.position.yes.avgPrice + s.position.no.avgPrice
    let s₁ := if beatsBest pairCost s.bestPairCost then
        { s with bestPairCost := some pairCost, lastImproveTs := now }
      else s
    if pairCost ≤ cfg.sumTarget then
      if s.arbLocked then (s₁, none)
      else ({ s₁ with arbLocked := true, status := .complete }, some ("ARB_LOCKED", 0))
    else (s₁, none)
  else (s, none)

/-! ### Exit waterfall — the timer pass of `checkStatusAndRotate`
(strategy lines 724-732)

The three exit procedures are `async` methods that fetch the two order
books and submit sell orders; the pure model receives the books and the
outcome of each successive order submission (`sellOk i` for the `i`-th
submission of the pass) through `PassEnv` and returns the submitted orders
and `PnlManager` calls as data. Each rule is split into its guard
condition (`…Cond`, the exact chain of early returns of the source) and
its execution. -/

/-- One resting order of an order-book side. -/
structure Bid where
  price : ℚ
  size : ℚ
  deriving DecidableEq

/-- `bids[0].price`; total functions model the head after the source's
explicit emptiness check. -/
def bestBid (book : List Bid) : ℚ := (book.headD { price := 0, size := 0 }).price

/-- `hasSufficientLiquidity` inner loop (strategy lines 1347-1354):
accumulate sizes until the needed quantity is covered. -/
def liqGo (needed : ℚ) : ℚ → List Bid → Bool
  | _, [] => false
  | cum, b :: rest =>
      if needed ≤ cum + b.size then true else liqGo needed (cum + b.size) rest

/-- `hasSufficientLiquidity(bids, needed)` (strategy lines 1347-1354). -/
def hasSufficientLiquidity (bids : List Bid) (needed : ℚ) : Bool :=
  liqGo needed 0 bids

/-- `getBidDepth(bids, price)` (strategy lines 1356-1364). -/
def getBidDepth (bids : List Bid) (price : ℚ) : ℚ :=
  bids.foldl (fun d b => if price ≤ b.price then d + b.size else d) 0

/-- The per-pass environment: wall clock, the two fetched books, and the
outcome of each successive sell submission. -/
structure PassEnv where
  now : ℚ
  yesBook : List Bid
  noBook : List Bid
  sellOk : ℕ → Bool

/-- A sell order submitted by `executeSell` / `emergencyHedge`, tagged with
the source's log label. -/
structure SellAction where
  label : String
  qty : ℚ
  price : ℚ
  deriving DecidableEq

/-- The `PnlManager` calls an exit rule makes. -/
inductive PnlEvent
  | closeEvent (reason : String) (pnl : ℚ)
  | logProfitEvent (amount : ℚ)
  | updCostEvent (yesCost noCost : ℚ)
  deriving DecidableEq

/-- Result of one rule evaluation: post state, submitted sells, ledger
calls, next sell-outcome index. -/
structure RuleOut where
  state : MarketState
  acts : List SellAction
  events : List PnlEvent
  sellIdx : ℕ

/-- `isYesWinner` (strategy lines 1423 / 1501): `bestBidYes > bestBidNo`. -/
def isYesWinner (env : PassEnv) : Bool :=
  bestBid env.noBook < bestBid env.yesBook

/-- The winner-side price used by the unwind and late rules. -/
def winnerPrice (env : PassEnv) : ℚ :=
  if isYesWinner env then bestBid env.yesBook else bestBid env.noBook

/-- The winner-side accumulator. -/
def winnerSide (s : MarketState) (env : PassEnv) : SideAcc :=
  if isYesWinner env then s.position.yes else s.position.no

/-- `totalWinnerProfit` of the partial unwind (strategy lines 1509-1511). -/
def puProfit (s : MarketState) (env : PassEnv) : ℚ :=
  (winnerPrice env - (winnerSide s env).avgPrice) * (winnerSide s env).totalShares

/-- The guard chain of `checkAndExecutePartialUnwind` (strategy lines
1474-1519): enabled, status `'scanning'`, both sides hold, within the
trigger window, both books non-empty, winner bid at or above the dominance
floor, winner-only profit at or above the minimum, and enough bid depth to
absorb the winner quantity. -/
def puCond (cfg : DipArbCfg) (s : MarketState) (env : PassEnv) : Prop :=
  cfg.unwind.enabled = true ∧ s.status = .scanning ∧
  0 < s.position.yes.totalShares ∧ 0 < s.position.no.totalShares ∧
  s.endTime - env.now ≤ jsOr cfg.unwind.timeRemainingSeconds 45 * 1000 ∧
  env.yesBook ≠ [] ∧ env.noBook ≠ [] ∧
  jsOr cfg.unwind.minWinnerPrice (70/100) ≤ winnerPrice env ∧
  jsOr cfg.unwind.minProfitUsd (20/100) ≤ puProfit s env ∧
  hasSufficientLiquidity (if isYesWinner env then env.yesBook else env.noBook)
    (winnerSide s env).totalShares = true

instance : ∀ cfg s env, Decidable (puCond cfg s env) := by
  intro cfg s env
  unfold puCond
  infer_instance

/-- `checkAndExecutePartialUnwind` (strategy lines 1474-1567): when the
guard chain passes, lock to `'partial_unwind'`, sell the whole winner side
at its best bid; on success reset the winner side to zero, log the realized
winner profit and re-sync the cycle costs (the cycle stays open and the
status stays `'partial_unwind'`); on failure revert to `'scanning'`. -/
def puRule (cfg : DipArbCfg) (s : MarketState) (env : PassEnv) (i : ℕ) : RuleOut :=
  if puCond cfg s env then
    let act : SellAction :=
      { label := "PARTIAL-UNWIND", qty := (winnerSide s env).totalShares,
        price := winnerPrice env }
    if env.sellOk i then
      let reset : SideAcc := { winnerSide s env with
        totalShares := 0, totalCost := 0, avgPrice := 0 }
      let pos' := if isYesWinner env then { s.position with yes := reset }
        else { s.position with no := reset }
      { state := { s with status := .unwinding, position := pos' }
        acts := [act]
        events := [PnlEvent.logProfitEvent (puProfit s env),
          PnlEvent.updCostEvent pos'.yes.totalCost pos'.no.totalCost]
        sellIdx := i + 1 }
    else { state := s, acts := [act], events := [], sellIdx := i + 1 }
  else { state := s, acts := [], events := [], sellIdx := i }

/-- `matchedShares = Math.min(yes.totalShares, no.totalShares)`. -/
def matchedShares (s : MarketState) : ℚ :=
  min s.position.yes.totalShares s.position.no.totalShares

/-- The matched-pair mark-to-market profit shared by the late and early
exits (strategy lines 1405-1410 / 1273-1279). -/
def pairExitProfit (s : MarketState) (env : PassEnv) : ℚ :=
  (bestBid env.yesBook + bestBid env.noBook -
    (s.position.yes.avgPrice + s.position.no.avgPrice)) * matchedShares s

/-- The guard chain of `checkAndExecuteLateExit` (strategy lines
1367-1413): enabled, status `'scanning'`, both sides hold, within the
trigger window, both books non-empty, winner bid at or above the dominance
floor, loser bid at or below its complement, matched profit at or above the
minimum. -/
def lateCond (cfg : DipArbCfg) (s : MarketState) (env : PassEnv) : Prop :=
  cfg.lateExit.enabled = true ∧ s.status = .scanning ∧
  0 < s.position.yes.totalShares ∧ 0 < s.position.no.totalShares ∧
  s.endTime - env.now ≤ jsOr cfg.lateExit.timeRemainingSeconds 60 * 1000 ∧
  env.yesBook ≠ [] ∧ env.noBook ≠ [] ∧
  jsOr cfg.lateExit.minWinnerPrice (70/100) ≤
    max (bestBid env.yesBook) (bestBid env.noBook) ∧
  min (bestBid env.yesBook) (bestBid env.noBook) ≤
    1 - jsOr cfg.lateExit.minWinnerPrice (70/100) ∧
  jsOr cfg.lateExit.minProfitUsd (1/100) ≤ pairExitProfit s env

instance : ∀ cfg s env, Decidable (lateCond cfg s env) := by
  intro cfg s env
  unfold lateCond
  infer_instance

/-- Zero both sides' share counts (strategy lines 1334-1335 / 1460-1461)
and finish with status `'complete'`. -/
def completeZeroed (s : MarketState) : MarketState :=
  { s with
    position :=
      { yes := { s.position.yes with totalShares := 0 }
        no := { s.position.no with totalShares := 0 } }
    status := .complete }

/-- `checkAndExecuteLateExit` (strategy lines 1367-1471): sell the winner
first; on its failure abort back to `'scanning'`; otherwise sell the loser
(on its failure, panic-dump at a 30% markdown and continue), zero both
share counts, complete, and close the cycle as `"LATE_EXIT"` with the
matched profit. -/
def lateRule (cfg : DipArbCfg) (s : MarketState) (env : PassEnv) (i : ℕ) : RuleOut :=
  if lateCond cfg s env then
    let m := matchedShares s
    let wp := if isYesWinner env then bestBid env.yesBook else bestBid env.noBook
    let lp := if isYesWinner env then bestBid env.noBook else bestBid env.yesBook
    let a1 : SellAction := { label := "LATE-EXIT-WIN", qty := m, price := wp }
    if env.sellOk i then
      let a2 : SellAction := { label := "LATE-EXIT-LOSE", qty := m, price := lp }
      if env.sellOk (i + 1) then
        { state := completeZeroed s, acts := [a1, a2]
          events := [PnlEvent.closeEvent "LATE_EXIT" (pairExitProfit s env)]
          sellIdx := i + 2 }
      else
        let a3 : SellAction :=
          { label := "LATE-FAIL-HEDGE", qty := m, price := lp * (70/100) }
        { state := completeZeroed s, acts := [a1, a2, a3]
          events := [PnlEvent.closeEvent "LATE_EXIT" (pairExitProfit s env)]
          sellIdx := i + 3 }
    else { state := s, acts := [a1], events := [], sellIdx := i + 1 }
  else { state := s, acts := [], events := [], sellIdx := i }

/-- `profitPct` of the early exit (strategy line 1278). -/
def earlyProfitPct (s : MarketState) (env : PassEnv) : ℚ :=
  (bestBid env.yesBook + bestBid env.noBook -
      (s.position.yes.avgPrice + s.position.no.avgPrice)) /
    (s.position.yes.avgPrice + s.position.no.avgPrice)

/-- The guard chain of `checkAndExecuteEarlyExit` (strategy lines
1245-1282): enabled, status `'scanning'`, both sides hold, both books
non-empty, enough depth on both books for the matched size, and the
percentage and absolute profit minimums. -/
def earlyCond (cfg : DipArbCfg) (s : MarketState) (env : PassEnv) : Prop :=
  cfg.earlyExit.enabled = true ∧ s.status = .scanning ∧
  0 < s.position.yes.totalShares ∧ 0 < s.position.no.totalShares ∧
  env.yesBook ≠ [] ∧ env.noBook ≠ [] ∧
  hasSufficientLiquidity env.yesBook (matchedShares s) = true ∧
  hasSufficientLiquidity env.noBook (matchedShares s) = true ∧
  jsOr cfg.earlyExit.minProfitPct (15/100) ≤ earlyProfitPct s env ∧
  jsOr cfg.earlyExit.minProfitUsd (1/2) ≤ pairExitProfit s env

instance : ∀ cfg s env, Decidable (earlyCond cfg s env) := by
  intro cfg s env
  unfold earlyCond
  infer_instance

/-- `checkAndExecuteEarlyExit` (strategy lines 1245-1345): lock to
`'EXITING'`, sell the thinner-depth leg first ("EXIT-1"); on its failure
revert to `'scanning'`; then the other leg ("EXIT-2"); on its failure
panic-dump at a 30% markdown, complete without zeroing the shares and
close as `"ABANDON"` with a rough cost-based loss; on success zero both
share counts, complete and close as `"EARLY_EXIT"` with the matched
profit. -/
def earlyRule (cfg : DipArbCfg) (s : MarketState) (env : PassEnv) (i : ℕ) : RuleOut :=
  if earlyCond cfg s env then
    let m := matchedShares s
    let yesDepth := getBidDepth env.yesBook (bestBid env.yesBook)
    let noDepth := getBidDepth env.noBook (bestBid env.noBook)
    let firstPrice := if yesDepth < noDepth then bestBid env.yesBook else bestBid env.noBook
    let secondPrice := if yesDepth < noDepth then bestBid env.noBook else bestBid env.yesBook
    let a1 : SellAction := { label := "EXIT-1", qty := m, price := firstPrice }
    if env.sellOk i then
      let a2 : SellAction := { label := "EXIT-2", qty := m, price := secondPrice }
      if env.sellOk (i + 1) then
        { state := completeZeroed s, acts := [a1, a2]
          events := [PnlEvent.closeEvent "EARLY_EXIT" (pairExitProfit s env)]
          sellIdx := i + 2 }
      else
        let a3 : SellAction :=
          { label := "EXIT-FAIL-HEDGE", qty := m, price := secondPrice * (70/100) }
        { state := { s with status := .complete }, acts := [a1, a2, a3]
          events := [PnlEvent.closeEvent "ABANDON" (-(m * firstPrice))]
          sellIdx := i + 3 }
    else { state := s, acts := [a1], events := [], sellIdx := i + 1 }
  else { state := s, acts := [], events := [], sellIdx := i }

/-- One timer evaluation pass over the exit hierarchy (strategy lines
724-732): partial unwind, then late dominance exit, then early profit
exit, each seeing the state and sell-outcome index the previous one left
behind. The sum-target lock is *not* part of this pass — `checkPairCost`
runs on the price-update path (strategy lines 911-919). -/
def exitPass (cfg : DipArbCfg) (s : MarketState) (env : PassEnv) (i : ℕ) : RuleOut :=
  let r1 := puRule cfg s env i
  let r2 := lateRule cfg r1.state env r1.sellIdx
  let r3 := earlyRule cfg r2.state env r2.sellIdx
  { state := r3.state, acts := r1.acts ++ r2.acts ++ r3.acts,
    events := r1.events ++ r2.events ++ r3.events, sellIdx := r3.sellIdx }

/-- The firing condition of the price-tick sum-target lock, read off
`checkPairCost` (strategy lines 1180-1215). -/
def sumTargetCond (cfg : DipArbCfg) (s : MarketState) : Prop :=
  s.status = .scanning ∧
  0 < s.position.yes.totalShares ∧ 0 < s.position.no.totalShares ∧
  s.position.yes.avgPrice + s.position.no.avgPrice ≤ cfg.sumTarget ∧
  s.arbLocked = false

instance : ∀ cfg s, Decidable (sumTargetCond cfg s) := by
  intro cfg s
  unfold sumTargetCond
  infer_instance

/-! ### Order execution — `DipArbStrategy.executeOrder` (strategy lines
1075-1178)

The balance read, the book's minimum order size and the submission outcome
are parameters; the WalletGuard counter is threaded explicitly through the
`tryReserve`/`release` functions above. The result records the order
submissions together with the value of the guard counter at the moment of
each submission. -/

/-- Outcome of `createAndPostOrder`: an order id, a response without one,
or a thrown exception. -/
inductive OrderOutcome
  | success
  | noOrderId
  | throws
  deriving DecidableEq

/-- One `createAndPostOrder` call, with the guard counter as it stood when
the order went out. -/
structure Submission where
  qty : ℚ
  price : ℚ
  reservedAt : ℚ
  deriving DecidableEq

/-- Result of `executeOrder`: the filled quantity it returns, the final
guard counter, and the submissions performed. -/
structure ExecResult where
  filled : ℚ
  reserved : ℚ
  submissions : List Submission
  deriving DecidableEq

/-- Submission constructor shorthand. -/
def mkSub (qty price reservedAt : ℚ) : Submission :=
  { qty := qty, price := price, reservedAt := reservedAt }

/-- The sizing stage of `executeOrder` (strategy lines 1088-1149): the
dynamic risk cap — liability-based `floor(balance * riskPct / 1.0)` when
not bypassing, `floor(balance / price)` when bypassing — followed by the
strict minimum-size rejections. `none` means the attempt returns 0 before
any reservation or submission; `some finalShares` proceeds to the
reserve/submit stage. -/
def orderSizing (bypassRisk : Bool) (requestedShares price availableUsd
    minShares : ℚ) : Option ℚ :=
  let riskPct : ℚ := if availableUsd < 20 then 1/2 else 15/100
  let maxSharesRisk : ℚ :=
    if bypassRisk then ((⌊availableUsd / price⌋ : ℤ) : ℚ)
    else ((⌊availableUsd * riskPct / 1⌋ : ℤ) : ℚ)
  if ¬ bypassRisk ∧ maxSharesRisk ≤ 0 then none
  else
    let finalShares := min requestedShares maxSharesRisk
    if ¬ bypassRisk ∧ finalShares < minShares then none
    else if finalShares < minShares ∧ bypassRisk ∧ finalShares ≤ 0 then none
    else some finalShares

/-- `executeOrder(tokenId, requestedShares, price, label, bypassRisk)`
(strategy lines 1075-1178): the sizing stage above, then
`WalletGuard.tryReserve(exactCost, balance)` before submission for
non-bypass orders only, release of `exactCost` on a missing order id and
on an exception, and no release on success. -/
def executeOrder (bypassRisk : Bool) (requestedShares price availableUsd
    minShares reserved : ℚ) (outcome : OrderOutcome) : ExecResult :=
  match orderSizing bypassRisk requestedShares price availableUsd minShares with
  | none => { filled := 0, reserved := reserved, submissions := [] }
  | some finalShares =>
      let exactCost := finalShares * price
      if bypassRisk then
        match outcome with
        | .success =>
            { filled := finalShares, reserved := reserved,
              submissions := [mkSub finalShares price reserved] }
        | _ =>
            { filled := 0, reserved := release exactCost reserved,
              submissions := [mkSub finalShares price reserved] }
      else
        let res := tryReserve exactCost availableUsd reserved
        if res.1 = false then
          { filled := 0, reserved := res.2, submissions := [] }
        else
          match outcome with
          | .success =>
              { filled := finalShares, reserved := res.2,
                submissions := [mkSub finalShares price res.2] }
          | _ =>
              { filled := 0, reserved := release exactCost res.2,
                submissions := [mkSub finalShares price res.2] }

/-! ### Entry-signal evaluation — `DipArbStrategy.checkOpportunity`
(strategy lines 927-1063)

Only the decision whether a dip signal leads to a buy attempt is needed by
the claims; the async fill application is `applyBuy` above. The wallet
balance and the coin's current exposure (read from the PnL manager) are
parameters. -/

/-- The two legs. -/
inductive SideTag
  | yes
  | no
  deriving DecidableEq

/-- `state.position[side]`. -/
def sideOf (p : Position) : SideTag → SideAcc
  | .yes => p.yes
  | .no => p.no

/-- One `PricePoint` of the sliding window. -/
structure PricePoint where
  price : ℚ
  timestamp : ℚ
  deriving DecidableEq

/-- The running window maximum (strategy lines 928-931). -/
def highPrice (history : List PricePoint) : ℚ :=
  history.foldl (fun acc p => if acc < p.price then p.price else acc) 0

/-- Whether `checkOpportunity` reaches the buy execution (strategy lines
927-1031): dip detection over the window followed by the guard chain —
arb-lock stop, per-side `isBuying` lock, 2.5s time debounce, 60s
stagnation pause, 30% global exposure cap, naked-side leg-2 timeout stop,
market capital cap, imbalance cap of two clip sizes, and the 1-cent price
debounce against the side's last fill. -/
def checkOpportunityFires (cfg : DipArbCfg) (s : MarketState) (side : SideTag)
    (currentPrice : ℚ) (history : List PricePoint)
    (now walletBal exposure : ℚ) : Bool :=
  if ¬ (0 < highPrice history ∧ 2 < history.length) then false
  else if cfg.ignorePriceBelow ≠ 0 ∧ currentPrice < cfg.ignorePriceBelow then false
  else if (highPrice history - currentPrice) / highPrice history < cfg.dipThreshold then
    false
  else if s.arbLocked then false
  else if (sideOf s.position side).isBuying then false
  else if now - (sideOf s.position side).lastBuyTs < 2500 then false
  else if (0 < s.position.yes.totalShares ∨ 0 < s.position.no.totalShares) ∧
      60000 < now - s.lastImproveTs then false
  else if 0 < walletBal ∧ walletBal * (30/100) < exposure then false
  else if (side = .yes ∧ 0 < s.position.yes.totalShares ∧
        s.position.no.totalShares = 0 ∨
      side = .no ∧ 0 < s.position.no.totalShares ∧
        s.position.yes.totalShares = 0) ∧
      cfg.leg2TimeoutSeconds * 1000 < now - (sideOf s.position side).firstBuyTs then
    false
  else if s.maxMarketUsd ≤ s.position.yes.totalCost + s.position.no.totalCost then false
  else if side = .yes ∧ s.position.no.totalShares + 2 * cfg.shares <
      s.position.yes.totalShares then false
  else if side = .no ∧ s.position.yes.totalShares + 2 * cfg.shares <
      s.position.no.totalShares then false
  else if (sideOf s.position side).lastBuyPrice.getD 0 ≠ 0 ∧
      |currentPrice - (sideOf s.position side).lastBuyPrice.getD 0| < 1/100 then false
  else true

/-! ### Force hedge — the naked-position section of `checkStatusAndRotate`
(strategy lines 624-722) -/

/-- The hedge order the timer issues, with its `executeOrder` result. -/
structure HedgeOrder where
  side : SideTag
  requested : ℚ
  price : ℚ
  exec : ExecResult
  deriving DecidableEq

/-- Dummy `HedgeOrder` used only as an `Option.getD` default in theorem
statements. -/
def noHedge : HedgeOrder :=
  { side := .yes, requested := 0, price := 0,
    exec := { filled := 0, reserved := 0, submissions := [] } }

/-- The naked-position timeout check of the 5-second timer (strategy lines
624-722): skip completed markets and arb-locked markets with more than 90
rounded seconds left; when exactly one side holds shares and its age since
first fill exceeds the leg-2 timeout, and the opposite side's last price
is known and positive, call `executeOrder` on the missing side for
`min(nakedShares, 3 * clipSize)` shares at that price with
`bypassRisk = true`; on a positive fill apply it to the opposite
accumulator, set `arbLocked` and keep status `'scanning'`. The drawdown
kill switch that sits between the guards and the hedge terminates the
whole process when it trips; the model covers the executions where it does
not. -/
def forceHedgeCheck (cfg : DipArbCfg) (s : MarketState) (now : ℚ)
    (lastYes lastNo : Option ℚ) (avail minShares reserved : ℚ)
    (outcome : OrderOutcome) : MarketState × Option HedgeOrder :=
  if s.status = .complete then (s, none)
  else if s.arbLocked = true ∧ 90 < round ((s.endTime - now) / 1000) then (s, none)
  else if (0 < s.position.yes.totalShares ∧ s.position.no.totalShares = 0) ∨
      (0 < s.position.no.totalShares ∧ s.position.yes.totalShares = 0) then
    let nakedYes := 0 < s.position.yes.totalShares ∧ s.position.no.totalShares = 0
    let naked := if nakedYes then s.position.yes else s.position.no
    if cfg.leg2TimeoutSeconds * 1000 < now - naked.firstBuyTs then
      match (if nakedYes then lastNo else lastYes) with
      | none => (s, none)
      | some p =>
          if 0 < p then
            let sharesToHedge := min naked.totalShares (cfg.shares * 3)
            let exec := executeOrder true sharesToHedge p avail minShares reserved outcome
            let ord : HedgeOrder :=
              { side := if nakedYes then .no else .yes, requested := sharesToHedge,
                price := p, exec := exec }
            if 0 < exec.filled then
              let opp := if nakedYes then s.position.no else s.position.yes
              let opp' := applyHedgeFill opp exec.filled p
              ({ s with
                  position := if nakedYes then { s.position with no := opp' }
                    else { s.position with yes := opp' }
                  arbLocked := true
                  status := .scanning }, some ord)
            else (s, some ord)
          else (s, none)
    else (s, none)
  else (s, none)

/-! ### Concrete states for the remaining scenarios and counterexamples -/

/-- Scenario A's YES side: two 10-share fills at 0.40. -/
def scenarioAYes : SideAcc := applyBuy (applyBuy initSide 10 (2/5) 0) 10 (2/5) 3000

/-- Scenario A's NO side: two 10-share fills at 0.50. -/
def scenarioANo : SideAcc := applyBuy (applyBuy initSide 10 (1/2) 1000) 10 (1/2) 4000

/-- Scenario A's market state: scanning, unlocked, both sides accumulated. -/
def scenarioAState : MarketState :=
  { position := { yes := scenarioAYes, no := scenarioANo }, status := .scanning,
    arbLocked := false, endTime := 900000, bestPairCost := none,
    lastImproveTs := 0, maxMarketUsd := 15 }

/-- The same position as Scenario A but with status `'EXITING'` (an early
exit in flight). -/
def exitingState : MarketState :=
  { scenarioAState with status := .exiting }

/-- A sell-outcome stream where every submission succeeds. -/
def allSellOk : ℕ → Bool := fun _ => true

/-- Waterfall counterexample environment: plenty of time left (300s), rich
books with best bids 0.55 / 0.52, every sell succeeding. -/
def wfCexEnv : PassEnv :=
  { now := 600000, yesBook := [{ price := 11/20, size := 50 }],
    noBook := [{ price := 13/25, size := 40 }], sellOk := allSellOk }

/-- Scenario B's market state: 10 naked YES shares bought at 0.40 at time
0, nothing on NO. -/
def scenarioBState : MarketState :=
  { position := { yes := applyBuy initSide 10 (2/5) 0, no := initSide },
    status := .scanning, arbLocked := false, endTime := 900000,
    bestPairCost := none, lastImproveTs := 0, maxMarketUsd := 15 }

/-- A partial-unwind witness environment: 40s left, winner bid 0.75 with
depth 50, loser bid 0.20, every sell succeeding. -/
def puWitEnv : PassEnv :=
  { now := 860000, yesBook := [{ price := 3/4, size := 50 }],
    noBook := [{ price := 1/5, size := 40 }], sellOk := allSellOk }

/-- Scenario B's configuration: the defaults with a 90-second leg-2
timeout. -/
def cfgB : DipArbCfg := { defaultCfg with leg2TimeoutSeconds := 90 }

/-- Scenario B's timer check at `t+91s`: naked YES, forced NO hedge price
0.55, balance 100, minimum size 1, clean guard counter, submission
succeeds. -/
def hedgeB : MarketState × Option HedgeOrder :=
  forceHedgeCheck cfgB scenarioBState 91000 none (some (11/20)) 100 1 0 .success

/-! ## Theorems -/

/-! ### Association-list lemmas shared by the ledger proofs -/

theorem lookup_updEntry_self {α : Type} (k : String) (v : α)
    (m : List (String × α)) : (updEntry k v m).lookup k = some v := by
  induction m with
  | nil => simp [updEntry, List.lookup]
  | cons e rest ih =>
    by_cases h : e.1 = k
    · simp [updEntry, h, List.lookup]
    · have hbeq : (k == e.1) = false := beq_eq_false_iff_ne.mpr (Ne.symm h)
      simp only [updEntry]
      rw [if_neg h]
      simp [List.lookup, hbeq, ih]

theorem lookup_eraseKey_self {α : Type} (k : String) (m : List (String × α)) :
    (eraseKey k m).lookup k = none := by
  induction m with
  | nil => simp [eraseKey, List.lookup]
  | cons e rest ih =>
    by_cases h : e.1 = k
    · simpa [eraseKey, h] using ih
    · have hbeq : (k == e.1) = false := beq_eq_false_iff_ne.mpr (Ne.symm h)
      simpa [eraseKey, h, List.lookup, hbeq] using ih

theorem lookup_ensureCoin_getD (coins : List (String × CoinPnL)) (c : String) :
    ((ensureCoin coins c).lookup c).getD (defaultCoin c) =
      (coins.lookup c).getD (defaultCoin c) := by
  unfold ensureCoin
  cases h : coins.lookup c with
  | none => simp [h, lookup_updEntry_self]
  | some v => simp [h]

/-- Claim C1: `WalletGuard.tryReserve(a, b)` returns `false` and leaves the
reserved counter unchanged when `reserved + a > b`, and otherwise increments
`reserved` by `a` and returns `true`; `release(a)` decrements `reserved` by
`a`, clamped at zero. Starting from `reserved = 0`: `tryReserve(60, 100)`
succeeds, a following `tryReserve(50, 100)` fails, and after `release(60)`
the call `tryReserve(50, 100)` succeeds. -/
theorem walletGuard_tryReserve_release_spec :
    (∀ a b r : ℚ,
      tryReserve a b r = if r + a > b then (false, r) else (true, r + a)) ∧
    (∀ a r : ℚ, release a r = max (r - a) 0) ∧
    tryReserve 60 100 0 = (true, 60) ∧
    tryReserve 50 100 60 = (false, 60) ∧
    release 60 60 = 0 ∧
    tryReserve 50 100 0 = (true, 50) := by
  refine ⟨fun a b r => rfl, fun a r => ?_, by norm_num [tryReserve],
    by norm_num [tryReserve], by norm_num [release], by norm_num [tryReserve]⟩
  unfold release
  rcases le_or_lt 0 (r - a) with h | h
  · rw [if_neg (not_lt.mpr h), max_eq_left h]
  · rw [if_pos h, max_eq_right h.le]

/-- Claim C7: assuming `startingBalance > 0`, `checkDrawdown(limit)` returns
`true` exactly when `(startingBalance - walletBalance) / startingBalance >
limit`; `startingBalance` is set by the first `updateWalletBalance` call with
a positive balance (from a fresh state) and never changed afterwards; with
`startingBalance = 100`, `checkDrawdown(0.10)` is `true` at
`walletBalance = 89` and `false` at `walletBalance = 91`. -/
theorem checkDrawdown_spec :
    (∀ (s : BalSnapshot) (limit : ℚ), 0 < s.startingBalance →
      (checkDrawdown s limit = true ↔
        (s.startingBalance - s.walletBalance) / s.startingBalance > limit)) ∧
    (∀ (s : BalSnapshot) (bal : ℚ), 0 < s.startingBalance →
      (updateWalletBalance s bal).startingBalance = s.startingBalance) ∧
    (∀ bals : List ℚ,
      (applyBalanceUpdates initBal bals).startingBalance =
        ((bals.filter (fun b => 0 < b)).headD 0)) ∧
    checkDrawdown { walletBalance := 89, startingBalance := 100 } (10/100) = true ∧
    checkDrawdown { walletBalance := 91, startingBalance := 100 } (10/100) = false := by
  refine ⟨?_, ?_, ?_, by norm_num [checkDrawdown], by norm_num [checkDrawdown]⟩
  · intro s limit h
    simp [checkDrawdown, not_le.mpr h]
  · intro s bal h
    simp [updateWalletBalance, ne_of_gt h]
  · intro bals
    suffices H : ∀ (s : BalSnapshot), s.startingBalance = 0 →
        (applyBalanceUpdates s bals).startingBalance =
          ((bals.filter (fun b => 0 < b)).headD 0) from H initBal rfl
    induction bals with
    | nil => intro s hs; simpa [applyBalanceUpdates] using hs
    | cons b rest ih =>
      intro s hs
      by_cases hb : 0 < b
      · have hstep : (updateWalletBalance s b).startingBalance = b := by
          simp [updateWalletBalance, hs, hb]
        have hnonzero : ∀ (t : BalSnapshot) (bals' : List ℚ),
            t.startingBalance ≠ 0 →
            (applyBalanceUpdates t bals').startingBalance = t.startingBalance := by
          intro t bals'
          induction bals' generalizing t with
          | nil => intro _; rfl
          | cons c rest' ih' =>
            intro ht
            have : (updateWalletBalance t c).startingBalance = t.startingBalance := by
              simp [updateWalletBalance, ht]
            simpa [applyBalanceUpdates, this] using
              (by simpa [this] using ih' (t := updateWalletBalance t c) (by simp [this, ht]))
        have : (applyBalanceUpdates (updateWalletBalance s b) rest).startingBalance = b := by
          rw [hnonzero _ rest (by simp [hstep]; exact ne_of_gt hb), hstep]
        simpa [applyBalanceUpdates, List.filter, hb] using this
      · have hstep : (updateWalletBalance s b).startingBalance = 0 := by
          simp [updateWalletBalance, hs, hb]
        have := ih (updateWalletBalance s b) hstep
        simpa [applyBalanceUpdates, List.filter, hb] using this

/-- Witness for C7 at concrete inputs: starting balance 100 is positive, the
drawdown test is the stated inequality there, and a later positive update
does not move the starting balance. -/
theorem checkDrawdown_spec_witness :
    (checkDrawdown { walletBalance := 89, startingBalance := 100 } (10/100) = true ↔
      ((100 : ℚ) - 89) / 100 > 10/100) ∧
    (updateWalletBalance { walletBalance := 89, startingBalance := 100 } 95).startingBalance
      = 100 :=
  ⟨checkDrawdown_spec.1 { walletBalance := 89, startingBalance := 100 } (10/100)
      (by norm_num),
   checkDrawdown_spec.2.1 { walletBalance := 89, startingBalance := 100 } 95 (by norm_num)⟩

/-- Claim C8 names the intended behavior — after
`updateCycleCost(marketId, y, n)` the persisted store records the cycle
with `yesCost = y`, `noCost = n` and a `currentExposure` equal to the
open-set sum — but the code loses the cost writes to the mid-method
re-sync inside `getCoinStats` (pnlManager.ts line 153 → line 104). At the
failing input (`demoLedger` holds the open BTC cycle `"m1"` with costs
(4, 5); update its costs to (7, 3)): the persisted cycle still carries
`yesCost = 4`, `noCost = 5`, while the persisted `currentExposure` is 10
(computed from the new costs before they were discarded), which no longer
equals the open-set sum 9 over the persisted cycles. -/
theorem updateCycleCost_resync_bug :
    ((updateCycleCost demoLedger "m1" 7 3 11).activeCycles.lookup "m1" =
      some demoCycle) ∧
    demoCycle.yesCost = 4 ∧ demoCycle.noCost = 5 ∧
    ((updateCycleCost demoLedger "m1" 7 3 11).activeCycles.lookup "m1" ≠
      some { demoCycle with yesCost := 7, noCost := 3 }) ∧
    (getCoin (updateCycleCost demoLedger "m1" 7 3 11) demoCycle.coin).currentExposure =
      10 ∧
    openExposure demoCycle.coin (updateCycleCost demoLedger "m1" 7 3 11).activeCycles =
      9 ∧
    (10 : ℚ) ≠ 9 := by
  refine ⟨?_, rfl, rfl, ?_, ?_, ?_, by norm_num⟩ <;>
    norm_num [updateCycleCost, demoLedger, demoCycle, getCoin, openExposure,
      ensureCoin, defaultCoin, updEntry, List.lookup]

/-- Claim C9: for every market id, terminal reason and pnl value, calling
`closeCycle` twice with the same market id produces the same `CoinPnL`
stats and the same persisted ledger content as calling it once — the second
call finds the cycle absent from the open set and is a no-op (its `save()`
only refreshes the `lastUpdate` write timestamp; with an equal timestamp
the two states are literally equal). -/
theorem closeCycle_idempotent (s : LedgerState) (marketId result : String)
    (pnl t₁ t₂ : ℚ) :
    ((closeCycle (closeCycle s marketId result pnl t₁) marketId result pnl t₂).coins =
      (closeCycle s marketId result pnl t₁).coins) ∧
    ((closeCycle (closeCycle s marketId result pnl t₁) marketId result pnl t₂).activeCycles =
      (closeCycle s marketId result pnl t₁).activeCycles) ∧
    ((closeCycle (closeCycle s marketId result pnl t₁) marketId result pnl t₂).walletBalance =
      (closeCycle s marketId result pnl t₁).walletBalance) ∧
    ((closeCycle (closeCycle s marketId result pnl t₁) marketId result pnl t₂).startingBalance =
      (closeCycle s marketId result pnl t₁).startingBalance) ∧
    (t₂ = t₁ →
      closeCycle (closeCycle s marketId result pnl t₁) marketId result pnl t₂ =
        closeCycle s marketId result pnl t₁) := by
  have hnone : (closeCycle s marketId result pnl t₁).activeCycles.lookup marketId = none := by
    cases h : s.activeCycles.lookup marketId with
    | none => simp [closeCycle, h]
    | some cy => simp [closeCycle, h, lookup_eraseKey_self]
  have hlast : (closeCycle s marketId result pnl t₁).lastUpdate = t₁ := by
    cases h : s.activeCycles.lookup marketId with
    | none => simp [closeCycle, h]
    | some cy => simp [closeCycle, h]
  have houter : ∀ t : ℚ,
      closeCycle (closeCycle s marketId result pnl t₁) marketId result pnl t =
        { closeCycle s marketId result pnl t₁ with lastUpdate := t } := by
    intro t
    set s₁ := closeCycle s marketId result pnl t₁ with hs₁
    unfold closeCycle
    rw [hnone]
  have upd_eq : ∀ (x : LedgerState) (t : ℚ), x.lastUpdate = t →
      ({ x with lastUpdate := t } : LedgerState) = x := by
    intro x t h
    cases x
    simp_all
  exact ⟨by rw [houter t₂], by rw [houter t₂], by rw [houter t₂], by rw [houter t₂],
    fun ht => by rw [houter t₂, ht, upd_eq _ t₁ hlast]⟩

/-- Witness for C9: closing the demo cycle twice at the same timestamp gives
literally the same ledger state as closing it once. -/
theorem closeCycle_idempotent_witness :
    closeCycle (closeCycle demoLedger "m1" "WIN" 2 3) "m1" "WIN" 2 3 =
      closeCycle demoLedger "m1" "WIN" 2 3 :=
  (closeCycle_idempotent demoLedger "m1" "WIN" 2 3 3).2.2.2.2 rfl

/-- Claim C10: `closeCycle` on a cycle present in the open set removes it
from `activeCycles` and increments `cyclesCompleted` by exactly one;
`WIN`, `EARLY_EXIT`, `LATE_EXIT` and `ARB` increment `cyclesWon`, `LOSS`
increments `cyclesLost`, and every other reason string (including
`ABANDON`, `ARB_LOCKED` and `EXPIRED`) increments `cyclesAbandoned`. -/
theorem closeCycle_classification (s : LedgerState) (marketId result : String)
    (pnl now : ℚ) (cy : CycleStats)
    (h : s.activeCycles.lookup marketId = some cy) :
    ((closeCycle s marketId result pnl now).activeCycles.lookup marketId = none) ∧
    ((getCoin (closeCycle s marketId result pnl now) cy.coin).cyclesCompleted =
      (getCoin s cy.coin).cyclesCompleted + 1) ∧
    ((getCoin (closeCycle s marketId result pnl now) cy.coin).cyclesWon =
      if result = "WIN" ∨ result = "EARLY_EXIT" ∨ result = "LATE_EXIT" ∨ result = "ARB"
      then (getCoin s cy.coin).cyclesWon + 1 else (getCoin s cy.coin).cyclesWon) ∧
    ((getCoin (closeCycle s marketId result pnl now) cy.coin).cyclesLost =
      if result = "LOSS"
      then (getCoin s cy.coin).cyclesLost + 1 else (getCoin s cy.coin).cyclesLost) ∧
    ((getCoin (closeCycle s marketId result pnl now) cy.coin).cyclesAbandoned =
      if ¬ (result = "WIN" ∨ result = "EARLY_EXIT" ∨ result = "LATE_EXIT" ∨
            result = "ARB") ∧ result ≠ "LOSS"
      then (getCoin s cy.coin).cyclesAbandoned + 1
      else (getCoin s cy.coin).cyclesAbandoned) := by
  have hwin : (isWinReason result = true) ↔
      (result = "WIN" ∨ result = "EARLY_EXIT" ∨ result = "LATE_EXIT" ∨ result = "ARB") := by
    simp [isWinReason]
  have hcoin : getCoin (closeCycle s marketId result pnl now) cy.coin =
      ({ (getCoin s cy.coin) with
        cyclesCompleted := (getCoin s cy.coin).cyclesCompleted + 1
        cyclesWon := if isWinReason result then (getCoin s cy.coin).cyclesWon + 1
          else (getCoin s cy.coin).cyclesWon
        cyclesLost := if result = "LOSS" then (getCoin s cy.coin).cyclesLost + 1
          else (getCoin s cy.coin).cyclesLost
        cyclesAbandoned := if ¬ (isWinReason result = true) ∧ result ≠ "LOSS"
          then (getCoin s cy.coin).cyclesAbandoned + 1
          else (getCoin s cy.coin).cyclesAbandoned
        realizedPnL := (getCoin s cy.coin).realizedPnL + pnl
        avgCycleDuration := ((getCoin s cy.coin).avgCycleDuration *
            (((getCoin s cy.coin).cyclesCompleted + 1 : ℕ) - 1) + (now - cy.startTs) / 1000) /
            (((getCoin s cy.coin).cyclesCompleted + 1 : ℕ) : ℚ)
        currentExposure := openExposure cy.coin (eraseKey marketId s.activeCycles) }) := by
    simp only [closeCycle, h, getCoin]
    rw [lookup_updEntry_self]
    simp [lookup_ensureCoin_getD]
  refine ⟨by simp [closeCycle, h, lookup_eraseKey_self], ?_, ?_, ?_, ?_⟩ <;>
    rw [hcoin] <;> simp [hwin]

/-- Witness for C10: closing the demo cycle with the strategy's
`"ARB_LOCKED"` reason removes it and routes the count to the abandoned
bucket (it is neither a win reason nor `LOSS`). -/
theorem closeCycle_classification_witness :
    ((closeCycle demoLedger "m1" "ARB_LOCKED" 0 9).activeCycles.lookup "m1" = none) ∧
    ((getCoin (closeCycle demoLedger "m1" "ARB_LOCKED" 0 9) demoCycle.coin).cyclesCompleted =
      (getCoin demoLedger demoCycle.coin).cyclesCompleted + 1) ∧
    ((getCoin (closeCycle demoLedger "m1" "ARB_LOCKED" 0 9) demoCycle.coin).cyclesWon =
      if ("ARB_LOCKED" : String) = "WIN" ∨ ("ARB_LOCKED" : String) = "EARLY_EXIT" ∨
         ("ARB_LOCKED" : String) = "LATE_EXIT" ∨ ("ARB_LOCKED" : String) = "ARB"
      then (getCoin demoLedger demoCycle.coin).cyclesWon + 1
      else (getCoin demoLedger demoCycle.coin).cyclesWon) ∧
    ((getCoin (closeCycle demoLedger "m1" "ARB_LOCKED" 0 9) demoCycle.coin).cyclesLost =
      if ("ARB_LOCKED" : String) = "LOSS"
      then (getCoin demoLedger demoCycle.coin).cyclesLost + 1
      else (getCoin demoLedger demoCycle.coin).cyclesLost) ∧
    ((getCoin (closeCycle demoLedger "m1" "ARB_LOCKED" 0 9) demoCycle.coin).cyclesAbandoned =
      if ¬ (("ARB_LOCKED" : String) = "WIN" ∨ ("ARB_LOCKED" : String) = "EARLY_EXIT" ∨
            ("ARB_LOCKED" : String) = "LATE_EXIT" ∨ ("ARB_LOCKED" : String) = "ARB") ∧
          ("ARB_LOCKED" : String) ≠ "LOSS"
      then (getCoin demoLedger demoCycle.coin).cyclesAbandoned + 1
      else (getCoin demoLedger demoCycle.coin).cyclesAbandoned) :=
  closeCycle_classification demoLedger "m1" "ARB_LOCKED" 0 9 demoCycle
    (by simp [demoLedger, List.lookup])

/-- Counterexample to claim C2: the state `sideAccCex` is reachable (a
10-share fill at 0.40 followed by the profit-exit share zeroing of strategy
lines 1334-1335, which runs while the cycle is being closed but is not a
full reset), yet `avgPrice * totalShares = 0 ≠ 4 = totalCost` — far beyond
any floating-point tolerance. -/
theorem sideAcc_product_counterexample :
    ReachableSide sideAccCex ∧
    sideAccCex.avgPrice * sideAccCex.totalShares ≠ sideAccCex.totalCost := by
  constructor
  · exact ReachableSide.exitZero
      (ReachableSide.buy 10 (2/5) 0 ReachableSide.init (by norm_num))
  · norm_num [sideAccCex, applyBuy, initSide]

/-- Claim C2 as amended: `avgPrice * totalShares = totalCost` holds (exactly,
in ℚ) at every side state reachable through fills alone, and a fill with
nonnegative quantity and price never decreases `totalShares` or `totalCost`.
The equality is broken by the early/late-exit share zeroing (which is not a
full reset: `totalCost` survives), and monotonicity is additionally broken
by the partial-unwind winner reset (cycle still open) and by restart
resumption seeding cost with zero shares. -/
theorem sideAcc_fill_invariant :
    (∀ s : SideAcc, FillReachable s →
      s.avgPrice * s.totalShares = s.totalCost) ∧
    (∀ (s : SideAcc) (f p now : ℚ), 0 ≤ f → 0 ≤ p →
      s.totalShares ≤ (applyBuy s f p now).totalShares ∧
      s.totalCost ≤ (applyBuy s f p now).totalCost ∧
      s.totalShares ≤ (applyHedgeFill s f p).totalShares ∧
      s.totalCost ≤ (applyHedgeFill s f p).totalCost) := by
  constructor
  · have aux : ∀ s : SideAcc, FillReachable s →
        0 ≤ s.totalShares ∧ s.avgPrice * s.totalShares = s.totalCost := by
      intro s h
      induction h with
      | init => simp [initSide]
      | buy filled price now hs hf ih =>
        obtain ⟨h0, _⟩ := ih
        have hpos : (0 : ℚ) < _ + filled := add_pos_of_nonneg_of_pos h0 hf
        refine ⟨by simpa [applyBuy] using hpos.le, ?_⟩
        simp only [applyBuy]
        exact div_mul_cancel₀ _ (ne_of_gt hpos)
      | hedge filled price hs hf ih =>
        obtain ⟨h0, _⟩ := ih
        have hpos : (0 : ℚ) < _ + filled := add_pos_of_nonneg_of_pos h0 hf
        refine ⟨by simpa [applyHedgeFill] using hpos.le, ?_⟩
        simp only [applyHedgeFill]
        exact div_mul_cancel₀ _ (ne_of_gt hpos)
    exact fun s h => (aux s h).2
  · intro s f p now hf hp
    refine ⟨?_, ?_, ?_, ?_⟩ <;> simp only [applyBuy, applyHedgeFill] <;>
      nlinarith [mul_nonneg hf hp]

/-- Witness for the amended C2 at a concrete fill-only state: after a
10-share organic fill at 0.40 the product identity holds. -/
theorem sideAcc_fill_invariant_witness :
    (applyBuy initSide 10 (2/5) 0).avgPrice * (applyBuy initSide 10 (2/5) 0).totalShares =
      (applyBuy initSide 10 (2/5) 0).totalCost :=
  sideAcc_fill_invariant.1 (applyBuy initSide 10 (2/5) 0)
    (FillReachable.buy 10 (2/5) 0 FillReachable.init (by norm_num))

/-- Counterexample to claim C4: in `exitingState` both sides hold shares,
`avgYes + avgNo = 0.90 ≤ 0.95 = sumTarget` and the position is not locked,
yet `checkPairCost` does nothing, because its guard also requires the
status not to be `'EXITING'` (or `'partial_unwind'`): no lock, no
`ARB_LOCKED` cycle close. -/
theorem checkPairCost_lock_counterexample :
    (0 < exitingState.position.yes.totalShares ∧
      0 < exitingState.position.no.totalShares ∧
      exitingState.position.yes.avgPrice + exitingState.position.no.avgPrice ≤
        defaultCfg.sumTarget ∧
      exitingState.arbLocked = false) ∧
    checkPairCost defaultCfg exitingState 600000 = (exitingState, none) := by
  constructor
  · refine ⟨?_, ?_, ?_, rfl⟩ <;>
      norm_num [exitingState, scenarioAState, scenarioAYes, scenarioANo,
        applyBuy, initSide, defaultCfg]
  · norm_num [checkPairCost, exitingState, scenarioAState]

/-- Claim C4 as amended: whenever the status is `Scanning` (the claim as
stated also demanded the lock while an exit is in flight, i.e. in the
`'EXITING'`/`'partial_unwind'` states, where the code deliberately skips
it), both sides hold shares, `avgYes + avgNo <= sumTarget` and the
position is not already locked, `checkPairCost` locks: `arbLocked` is set,
the status moves to `Complete`, and the cycle is closed with terminal
reason `ARB_LOCKED` and zero realized PnL. -/
theorem checkPairCost_lock (cfg : DipArbCfg) (s : MarketState) (now : ℚ)
    (hst : s.status = .scanning)
    (hy : 0 < s.position.yes.totalShares) (hn : 0 < s.position.no.totalShares)
    (hpc : s.position.yes.avgPrice + s.position.no.avgPrice ≤ cfg.sumTarget)
    (hal : s.arbLocked = false) :
    (checkPairCost cfg s now).1.status = .complete ∧
    (checkPairCost cfg s now).1.arbLocked = true ∧
    (checkPairCost cfg s now).2 = some ("ARB_LOCKED", 0) := by
  simp [checkPairCost, hst, hy, hn, hpc, hal]

/-- Witness for the amended C4, Scenario A: two 10-share fills at 0.40
(YES) and two at 0.50 (NO) give `avgYes = 0.40`, `avgNo = 0.50`,
`pairCost = 0.90`; with `sumTarget = 0.95` the lock fires with an
`ARB_LOCKED` close and zero realized PnL. -/
theorem checkPairCost_lock_witness :
    scenarioAYes.avgPrice = 2/5 ∧ scenarioANo.avgPrice = 1/2 ∧
    scenarioAState.position.yes.avgPrice + scenarioAState.position.no.avgPrice =
      9/10 ∧
    (9/10 : ℚ) ≤ defaultCfg.sumTarget ∧
    (checkPairCost defaultCfg scenarioAState 5000).1.status = .complete ∧
    (checkPairCost defaultCfg scenarioAState 5000).1.arbLocked = true ∧
    (checkPairCost defaultCfg scenarioAState 5000).2 = some ("ARB_LOCKED", 0) := by
  have H := checkPairCost_lock defaultCfg scenarioAState 5000 rfl
    (by norm_num [scenarioAState, scenarioAYes, applyBuy, initSide])
    (by norm_num [scenarioAState, scenarioANo, applyBuy, initSide])
    (by norm_num [scenarioAState, scenarioAYes, scenarioANo, applyBuy, initSide,
      defaultCfg])
    rfl
  refine ⟨?_, ?_, ?_, by norm_num [defaultCfg], H.1, H.2.1, H.2.2⟩ <;>
    norm_num [scenarioAState, scenarioAYes, scenarioANo, applyBuy, initSide]

/-- Counterexample to claim C6: a forced-hedge order
(`bypassRisk = true`, as issued by the naked-position timeout at strategy
lines 693-699) is submitted without any Capital Guard reservation: the
order for 10 shares at 0.50 (exact cost 5) goes out while the guard
counter still holds 0, and the counter never moves. -/
theorem executeOrder_reserve_counterexample :
    (executeOrder true 10 (1/2) 100 1 0 .success).submissions =
      [mkSub 10 (1/2) 0] ∧
    (executeOrder true 10 (1/2) 100 1 0 .success).filled = 10 ∧
    (executeOrder true 10 (1/2) 100 1 0 .success).reserved = 0 ∧
    (0 : ℚ) ≠ 0 + 10 * (1/2) := by
  refine ⟨?_, ?_, ?_, by norm_num⟩ <;> norm_num [executeOrder, orderSizing, mkSub]

/-- Claim C6 as amended: every *non-bypass* order attempt (all organic
buys; forced hedges pass `bypassRisk = true` and skip the guard entirely)
reserves the exact order cost against the freshly read balance before the
order is submitted — every submission happens with the guard counter at
`r + qty * price`, which `tryReserve` checked against the balance —
releases exactly that amount on every failure path including exceptions
(final counter back to `r`), and never releases the reservation on
success. -/
theorem executeOrder_reserve_spec (requested price avail minShares r : ℚ)
    (outcome : OrderOutcome) (hr : 0 ≤ r) :
    (∀ sub ∈ (executeOrder false requested price avail minShares r outcome).submissions,
      sub.price = price ∧ sub.reservedAt = r + sub.qty * price ∧
        sub.reservedAt ≤ avail) ∧
    ((executeOrder false requested price avail minShares r outcome).filled = 0 →
      (executeOrder false requested price avail minShares r outcome).reserved = r) ∧
    (0 < (executeOrder false requested price avail minShares r outcome).filled →
      (executeOrder false requested price avail minShares r outcome).reserved =
        r + (executeOrder false requested price avail minShares r outcome).filled *
          price) := by
  have hrel : ∀ c : ℚ, release c (r + c) = r := by
    intro c
    unfold release
    rw [show r + c - c = r by ring, if_neg (not_lt.mpr hr)]
  cases hsz : orderSizing false requested price avail minShares with
  | none => simp [executeOrder, hsz]
  | some fs =>
    by_cases hres : avail < r + fs * price
    · have htr : tryReserve (fs * price) avail r = (false, r) := by
        unfold tryReserve
        rw [if_pos hres]
      rcases outcome with _ | _ | _ <;> simp [executeOrder, hsz, htr]
    · have htr : tryReserve (fs * price) avail r = (true, r + fs * price) := by
        unfold tryReserve
        rw [if_neg hres]
      have hle : r + fs * price ≤ avail := not_lt.mp hres
      rcases outcome with _ | _ | _ <;>
        · simp [executeOrder, hsz, htr, mkSub, hrel, hle] <;> tauto

/-- Witness for the amended C6 on a successful organic buy: requesting 10
shares at 0.40 with balance 100 and guard counter 0, the submission goes
out with the counter at the exact cost 4 and the counter stays there. -/
theorem executeOrder_reserve_spec_witness :
    (executeOrder false 10 (2/5) 100 1 0 .success).reserved =
      0 + (executeOrder false 10 (2/5) 100 1 0 .success).filled * (2/5) :=
  (executeOrder_reserve_spec 10 (2/5) 100 1 0 .success (by norm_num)).2.2
    (by norm_num [executeOrder, orderSizing, tryReserve])

/-! ### Lemmas for the forced hedge -/

theorem orderSizing_bypass (requested price avail minShares : ℚ)
    (hreq : 0 < requested) (hp : 0 < price) (hpa : price ≤ avail) :
    orderSizing true requested price avail minShares =
      some (min requested ((⌊avail / price⌋ : ℤ) : ℚ)) ∧
    0 < min requested ((⌊avail / price⌋ : ℤ) : ℚ) := by
  have hfl : (1 : ℚ) ≤ ((⌊avail / price⌋ : ℤ) : ℚ) := by
    have h1 : (1 : ℚ) ≤ avail / price := (one_le_div hp).mpr hpa
    exact_mod_cast Int.le_floor.mpr (by exact_mod_cast h1)
  have hfs : 0 < min requested ((⌊avail / price⌋ : ℤ) : ℚ) :=
    lt_min hreq (lt_of_lt_of_le zero_lt_one hfl)
  refine ⟨?_, hfs⟩
  simp [orderSizing, not_le.mpr hfs]

theorem executeOrder_bypass_success (requested price avail minShares r : ℚ)
    (hreq : 0 < requested) (hp : 0 < price) (hpa : price ≤ avail) :
    executeOrder true requested price avail minShares r .success =
      { filled := min requested ((⌊avail / price⌋ : ℤ) : ℚ), reserved := r,
        submissions := [mkSub (min requested ((⌊avail / price⌋ : ℤ) : ℚ)) price r] } ∧
    0 < min requested ((⌊avail / price⌋ : ℤ) : ℚ) ∧
    min requested ((⌊avail / price⌋ : ℤ) : ℚ) * price ≤ avail := by
  obtain ⟨hsz, hfs⟩ := orderSizing_bypass requested price avail minShares hreq hp hpa
  have hcost : min requested ((⌊avail / price⌋ : ℤ) : ℚ) * price ≤ avail := by
    have h1 : min requested ((⌊avail / price⌋ : ℤ) : ℚ) ≤ avail / price :=
      le_trans (min_le_right _ _) (Int.floor_le _)
    calc min requested ((⌊avail / price⌋ : ℤ) : ℚ) * price
        ≤ (avail / price) * price := mul_le_mul_of_nonneg_right h1 hp.le
      _ = avail := div_mul_cancel₀ _ (ne_of_gt hp)
  exact ⟨by simp [executeOrder, hsz], hfs, hcost⟩

theorem checkOpportunityFires_of_arbLocked (cfg : DipArbCfg) (s : MarketState)
    (side : SideTag) (cp : ℚ) (hist : List PricePoint) (now wb ex : ℚ)
    (h : s.arbLocked = true) : checkOpportunityFires cfg s side cp hist now wb ex = false := by
  simp [checkOpportunityFires, h]

/-- Claim C5: on a timer check of a scanning, unlocked market where
exactly one side (YES) holds shares and the elapsed time since its first
fill exceeds the leg-2 timeout, a buy is issued on the missing NO side at
the last observed NO price `p` for at most the naked quantity (the request
is `min(nakedShares, 3 * clipSize)`); its sizing cap is `floor(balance /
price)` (the balance, bypassing the risk-percentage cap, which also skips
the Capital Guard reservation — the guard counter stays `r`), so the spend
`filled * p` never exceeds the available balance; on a successful fill the
position becomes `arbLocked = true` while the status stays `'scanning'`,
and `checkOpportunity` can no longer fire an organic dip-signal buy on
either side. -/
theorem forceHedge_spec (cfg : DipArbCfg) (s : MarketState)
    (now p avail minShares r : ℚ) (lastYes : Option ℚ)
    (hst : s.status = .scanning) (hal : s.arbLocked = false)
    (hy : 0 < s.position.yes.totalShares) (hn : s.position.no.totalShares = 0)
    (hage : cfg.leg2TimeoutSeconds * 1000 < now - s.position.yes.firstBuyTs)
    (hp : 0 < p) (hpa : p ≤ avail) (hshares : 0 < cfg.shares) :
    ((forceHedgeCheck cfg s now lastYes (some p) avail minShares r .success).2.getD
        noHedge).side = SideTag.no ∧
    ((forceHedgeCheck cfg s now lastYes (some p) avail minShares r .success).2.getD
        noHedge).price = p ∧
    ((forceHedgeCheck cfg s now lastYes (some p) avail minShares r .success).2.getD
        noHedge).requested = min s.position.yes.totalShares (cfg.shares * 3) ∧
    ((forceHedgeCheck cfg s now lastYes (some p) avail minShares r .success).2.getD
        noHedge).requested ≤ s.position.yes.totalShares ∧
    0 < ((forceHedgeCheck cfg s now lastYes (some p) avail minShares r .success).2.getD
        noHedge).exec.filled ∧
    ((forceHedgeCheck cfg s now lastYes (some p) avail minShares r .success).2.getD
        noHedge).exec.filled ≤
      ((forceHedgeCheck cfg s now lastYes (some p) avail minShares r .success).2.getD
        noHedge).requested ∧
    ((forceHedgeCheck cfg s now lastYes (some p) avail minShares r .success).2.getD
        noHedge).exec.filled * p ≤ avail ∧
    ((forceHedgeCheck cfg s now lastYes (some p) avail minShares r .success).2.getD
        noHedge).exec.reserved = r ∧
    (forceHedgeCheck cfg s now lastYes (some p) avail minShares r .success).1.arbLocked =
      true ∧
    (forceHedgeCheck cfg s now lastYes (some p) avail minShares r .success).1.status =
      .scanning ∧
    (∀ (side : SideTag) (cp : ℚ) (hist : List PricePoint) (t wb ex : ℚ),
      checkOpportunityFires cfg
        (forceHedgeCheck cfg s now lastYes (some p) avail minShares r .success).1
        side cp hist t wb ex = false) := by
  have hreq : 0 < min s.position.yes.totalShares (cfg.shares * 3) :=
    lt_min hy (by nlinarith)
  obtain ⟨hexec, hfs, hcost⟩ := executeOrder_bypass_success
    (min s.position.yes.totalShares (cfg.shares * 3)) p avail minShares r hreq hp hpa
  have hred : forceHedgeCheck cfg s now lastYes (some p) avail minShares r .success =
      ({ s with
          position :=
            { s.position with
              no := applyHedgeFill s.position.no
                (min (min s.position.yes.totalShares (cfg.shares * 3))
                  ((⌊avail / p⌋ : ℤ) : ℚ)) p }
          arbLocked := true
          status := .scanning },
        some
          { side := .no,
            requested := min s.position.yes.totalShares (cfg.shares * 3),
            price := p,
            exec :=
              { filled := min (min s.position.yes.totalShares (cfg.shares * 3))
                  ((⌊avail / p⌋ : ℤ) : ℚ),
                reserved := r,
                submissions := [mkSub (min (min s.position.yes.totalShares
                  (cfg.shares * 3)) ((⌊avail / p⌋ : ℤ) : ℚ)) p r] } }) := by
    simp [forceHedgeCheck, hst, hal, hy, hn, hage, hp, hexec, hfs]
  rw [hred]
  have hlock : ∀ (side : SideTag) (cp : ℚ) (hist : List PricePoint) (t wb ex : ℚ),
      checkOpportunityFires cfg
        ({ s with
          position :=
            { s.position with
              no := applyHedgeFill s.position.no
                (min (min s.position.yes.totalShares (cfg.shares * 3))
                  ((⌊avail / p⌋ : ℤ) : ℚ)) p }
          arbLocked := true
          status := .scanning }) side cp hist t wb ex = false := by
    intro side cp hist t wb ex
    exact checkOpportunityFires_of_arbLocked _ _ _ _ _ _ _ _ rfl
  exact ⟨rfl, rfl, rfl, min_le_left _ _, hfs, min_le_left _ _, hcost, rfl, rfl, rfl, hlock⟩

/-- Witness for C5, Scenario B: 10 naked YES shares, a 90s timeout, the
check at `t+91s` with hedge price 0.55 issues a NO buy of up to 10 shares
(request exactly 10), spending at most the balance, leaving the guard
counter untouched, setting `arbLocked` with status still `'scanning'`, and
a subsequent dip signal does not buy. -/
theorem forceHedge_spec_witness :
    (hedgeB.2.getD noHedge).side = SideTag.no ∧
    (hedgeB.2.getD noHedge).price = 11/20 ∧
    (hedgeB.2.getD noHedge).requested = 10 ∧
    0 < (hedgeB.2.getD noHedge).exec.filled ∧
    (hedgeB.2.getD noHedge).exec.filled ≤ 10 ∧
    (hedgeB.2.getD noHedge).exec.filled * (11/20) ≤ 100 ∧
    (hedgeB.2.getD noHedge).exec.reserved = 0 ∧
    hedgeB.1.arbLocked = true ∧
    hedgeB.1.status = MStatus.scanning ∧
    checkOpportunityFires cfgB hedgeB.1 SideTag.yes (1/2) [] 0 100 0 = false := by
  have H := forceHedge_spec cfgB scenarioBState 91000 (11/20) 100 1 0 none rfl rfl
    (by norm_num [scenarioBState, applyBuy, initSide])
    (by norm_num [scenarioBState, initSide])
    (by norm_num [cfgB, defaultCfg, scenarioBState, applyBuy, initSide])
    (by norm_num) (by norm_num) (by norm_num [cfgB, defaultCfg])
  have hreqval : (hedgeB.2.getD noHedge).requested = 10 := by
    rw [show hedgeB = forceHedgeCheck cfgB scenarioBState 91000 none (some (11/20))
      100 1 0 .success from rfl, H.2.2.1]
    norm_num [scenarioBState, applyBuy, initSide, cfgB, defaultCfg]
  have hfle : (hedgeB.2.getD noHedge).exec.filled ≤ 10 := by
    have h1 := H.2.2.2.2.2.1
    rw [← hreqval]
    exact h1
  exact ⟨H.1, H.2.1, hreqval, H.2.2.2.2.1, hfle, H.2.2.2.2.2.2.1,
    H.2.2.2.2.2.2.2.1, H.2.2.2.2.2.2.2.2.1, H.2.2.2.2.2.2.2.2.2.1,
    H.2.2.2.2.2.2.2.2.2.2 SideTag.yes (1/2) [] 0 100 0⟩

/-! ### Lemmas for the exit waterfall -/

theorem puRule_skip (cfg : DipArbCfg) (t : MarketState) (env : PassEnv) (j : ℕ)
    (h : ¬ puCond cfg t env) :
    puRule cfg t env j = { state := t, acts := [], events := [], sellIdx := j } := by
  simp [puRule, h]

theorem lateRule_skip (cfg : DipArbCfg) (t : MarketState) (env : PassEnv) (j : ℕ)
    (h : ¬ lateCond cfg t env) :
    lateRule cfg t env j = { state := t, acts := [], events := [], sellIdx := j } := by
  simp [lateRule, h]

theorem earlyRule_skip (cfg : DipArbCfg) (t : MarketState) (env : PassEnv) (j : ℕ)
    (h : ¬ earlyCond cfg t env) :
    earlyRule cfg t env j = { state := t, acts := [], events := [], sellIdx := j } := by
  simp [earlyRule, h]

theorem lateRule_not_scanning (cfg : DipArbCfg) (t : MarketState) (env : PassEnv)
    (j : ℕ) (h : t.status ≠ .scanning) :
    lateRule cfg t env j = { state := t, acts := [], events := [], sellIdx := j } :=
  lateRule_skip cfg t env j (fun hc => h hc.2.1)

theorem earlyRule_not_scanning (cfg : DipArbCfg) (t : MarketState) (env : PassEnv)
    (j : ℕ) (h : t.status ≠ .scanning) :
    earlyRule cfg t env j = { state := t, acts := [], events := [], sellIdx := j } :=
  earlyRule_skip cfg t env j (fun hc => h hc.2.1)

theorem puRule_fires (cfg : DipArbCfg) (t : MarketState) (env : PassEnv) (j : ℕ)
    (hc : puCond cfg t env) (hs : env.sellOk j = true) :
    (puRule cfg t env j).acts =
      [{ label := "PARTIAL-UNWIND", qty := (winnerSide t env).totalShares,
         price := winnerPrice env }] ∧
    (puRule cfg t env j).state.status = .unwinding ∧
    (puRule cfg t env j).sellIdx = j + 1 := by
  simp [puRule, hc, hs]

theorem lateRule_fires (cfg : DipArbCfg) (t : MarketState) (env : PassEnv) (j : ℕ)
    (hc : lateCond cfg t env) (h1 : env.sellOk j = true)
    (h2 : env.sellOk (j + 1) = true) :
    (lateRule cfg t env j).acts.map SellAction.label =
      ["LATE-EXIT-WIN", "LATE-EXIT-LOSE"] ∧
    (lateRule cfg t env j).state.status = .complete := by
  simp [lateRule, hc, h1, h2, completeZeroed]

theorem earlyRule_labels (cfg : DipArbCfg) (t : MarketState) (env : PassEnv) (j : ℕ) :
    ∀ a ∈ (earlyRule cfg t env j).acts,
      a.label = "EXIT-1" ∨ a.label = "EXIT-2" ∨ a.label = "EXIT-FAIL-HEDGE" := by
  by_cases hc : earlyCond cfg t env
  · cases h1 : env.sellOk j
    · simp [earlyRule, hc, h1]
    · cases h2 : env.sellOk (j + 1) <;> simp [earlyRule, hc, h1, h2]
  · simp [earlyRule, hc]

/-- Counterexample to claim C3: in `scenarioAState` (scanning, unlocked,
20 matched shares at pair cost 0.90 ≤ 0.95) the Sum-Target Lock condition
holds — `checkPairCost` itself would close the cycle `ARB_LOCKED` — yet
the timer evaluation pass, which never evaluates the sum-target rule (it
lives on the price-tick path), executes the lowest-priority Early Profit
Exit: it submits both exit sells and closes the cycle `EARLY_EXIT`, so a
lower-priority rule's action runs while a higher-priority rule's condition
is satisfied. -/
theorem exitPass_priority_counterexample :
    sumTargetCond defaultCfg scenarioAState ∧
    (checkPairCost defaultCfg scenarioAState 600000).2 = some ("ARB_LOCKED", 0) ∧
    (exitPass defaultCfg scenarioAState wfCexEnv 0).acts.map SellAction.label =
      ["EXIT-1", "EXIT-2"] ∧
    (exitPass defaultCfg scenarioAState wfCexEnv 0).events =
      [PnlEvent.closeEvent "EARLY_EXIT" (17/5)] := by
  refine ⟨?_, ?_, ?_, ?_⟩
  · refine ⟨rfl, ?_, ?_, ?_, rfl⟩ <;>
      norm_num [scenarioAState, scenarioAYes, scenarioANo, applyBuy, initSide,
        defaultCfg]
  · norm_num [checkPairCost, scenarioAState, scenarioAYes, scenarioANo, applyBuy,
      initSide, defaultCfg, beatsBest]
    decide
  · norm_num [exitPass, puRule, lateRule, earlyRule, puCond, lateCond, earlyCond,
      jsOr, isYesWinner, winnerPrice, winnerSide, puProfit, matchedShares,
      pairExitProfit, earlyProfitPct, hasSufficientLiquidity, liqGo, getBidDepth,
      bestBid, completeZeroed, allSellOk, wfCexEnv, scenarioAState, scenarioAYes,
      scenarioANo, applyBuy, initSide, defaultCfg, defaultEarlyCfg, defaultLateCfg,
      defaultUnwindCfg]
  · norm_num [exitPass, puRule, lateRule, earlyRule, puCond, lateCond, earlyCond,
      jsOr, isYesWinner, winnerPrice, winnerSide, puProfit, matchedShares,
      pairExitProfit, earlyProfitPct, hasSufficientLiquidity, liqGo, getBidDepth,
      bestBid, completeZeroed, allSellOk, wfCexEnv, scenarioAState, scenarioAYes,
      scenarioANo, applyBuy, initSide, defaultCfg, defaultEarlyCfg, defaultLateCfg,
      defaultUnwindCfg]

/-- Claim C3 as amended: the timer pass evaluates the exit rules in the
order Partial Unwind, Late Dominance Exit, Early Profit Exit; the
Sum-Target Lock is evaluated separately on each price tick
(`checkPairCost`), not inside this pass, so its condition does not preempt
the pass's rules. When every issued sell succeeds, at most one rule's
actions execute per evaluation pass, and for any state satisfying the
Partial Unwind condition (in particular one also satisfying the Early
Profit Exit condition), only the Partial Unwind action is taken. -/
theorem exitPass_one_rule (cfg : DipArbCfg) (s : MarketState) (env : PassEnv)
    (i : ℕ) (hok : ∀ j, env.sellOk j = true) :
    ((∀ a ∈ (exitPass cfg s env i).acts, a.label = "PARTIAL-UNWIND") ∨
      (∀ a ∈ (exitPass cfg s env i).acts,
        a.label = "LATE-EXIT-WIN" ∨ a.label = "LATE-EXIT-LOSE" ∨
          a.label = "LATE-FAIL-HEDGE") ∨
      (∀ a ∈ (exitPass cfg s env i).acts,
        a.label = "EXIT-1" ∨ a.label = "EXIT-2" ∨ a.label = "EXIT-FAIL-HEDGE")) ∧
    (puCond cfg s env →
      (exitPass cfg s env i).acts =
        [{ label := "PARTIAL-UNWIND", qty := (winnerSide s env).totalShares,
           price := winnerPrice env }]) := by
  by_cases hpu : puCond cfg s env
  · obtain ⟨ha, hst', _⟩ := puRule_fires cfg s env i hpu (hok i)
    have h2 := lateRule_not_scanning cfg (puRule cfg s env i).state env
      (puRule cfg s env i).sellIdx (by rw [hst']; simp)
    have hacts : (exitPass cfg s env i).acts =
        [{ label := "PARTIAL-UNWIND", qty := (winnerSide s env).totalShares,
           price := winnerPrice env }] := by
      simp only [exitPass]
      rw [h2]
      rw [earlyRule_not_scanning cfg (puRule cfg s env i).state env
        (puRule cfg s env i).sellIdx (by rw [hst']; simp)]
      simp [ha]
    refine ⟨Or.inl ?_, fun _ => hacts⟩
    rw [hacts]
    intro a hax
    simpa using (List.mem_singleton.mp hax) ▸ rfl
  · have h1 := puRule_skip cfg s env i hpu
    refine ⟨?_, fun hc => absurd hc hpu⟩
    by_cases hlate : lateCond cfg s env
    · obtain ⟨hl, hlstat⟩ := lateRule_fires cfg s env i hlate (hok i) (hok (i + 1))
      have hacts : (exitPass cfg s env i).acts = (lateRule cfg s env i).acts := by
        simp only [exitPass]
        rw [h1]
        rw [earlyRule_not_scanning cfg (lateRule cfg s env i).state env
          (lateRule cfg s env i).sellIdx (by rw [hlstat]; simp)]
        simp
      refine Or.inr (Or.inl ?_)
      rw [hacts]
      intro a hax
      have hmem : a.label ∈ (lateRule cfg s env i).acts.map SellAction.label :=
        List.mem_map_of_mem SellAction.label hax
      rw [hl] at hmem
      simp only [List.mem_cons, List.not_mem_nil, or_false] at hmem
      rcases hmem with h | h
      · exact Or.inl h
      · exact Or.inr (Or.inl h)
    · have h2 := lateRule_skip cfg s env i hlate
      have hacts : (exitPass cfg s env i).acts = (earlyRule cfg s env i).acts := by
        simp only [exitPass]
        rw [h1, h2]
        simp
      refine Or.inr (Or.inr ?_)
      rw [hacts]
      exact earlyRule_labels cfg s env i

/-- Witness for the amended C3: in `scenarioAState` 40 seconds before
expiry with a dominant winner bid of 0.75, the partial-unwind condition
holds; with all sells succeeding, the pass performs exactly the single
`PARTIAL-UNWIND` sell of the 20 winner shares at 0.75 and nothing else. -/
theorem exitPass_one_rule_witness :
    (exitPass defaultCfg scenarioAState puWitEnv 0).acts =
      [{ label := "PARTIAL-UNWIND", qty := 20, price := 3/4 }] := by
  have H := exitPass_one_rule defaultCfg scenarioAState puWitEnv 0 (fun _ => rfl)
  rw [H.2 (by
    refine ⟨rfl, rfl, ?_, ?_, ?_, ?_, ?_, ?_, ?_, ?_⟩ <;>
      norm_num [puWitEnv, scenarioAState, scenarioAYes, scenarioANo, applyBuy,
        initSide, defaultCfg, defaultUnwindCfg, jsOr, winnerPrice, winnerSide,
        isYesWinner, bestBid, puProfit, hasSufficientLiquidity, liqGo])]
  norm_num [winnerSide, winnerPrice, isYesWinner, bestBid, puWitEnv,
    scenarioAState, scenarioAYes, scenarioANo, applyBuy, initSide]
